import Mathlib

/-!
Shallow embedding of the `sys` package: an in-memory fake filesystem
(`FakeFS`, a map from path strings to heap-allocated byte buffers), a fake
path walker (`FakeFP`) and a file-info stub (`FakeFI`).  Go's
`map[string]*bytes.Buffer` is modelled as an association list from paths to
heap locations together with an explicit heap of buffers, so that the
aliasing between a map entry and the `inMemoryCloser` handle returned by
`Create` is represented faithfully.
-/

namespace Sys

/-- Bytes of a `bytes.Buffer`, modelled as a list of natural numbers
(each standing for one byte; the filesystem never inspects them). -/
abbrev Bytes := List Nat

/-- Heap of `bytes.Buffer` objects: a location is an index into `bufs`.
Allocation appends a fresh empty buffer and returns its location. -/
structure Heap where
  bufs : List Bytes
  deriving Repr, DecidableEq

/-- Allocate a `new(bytes.Buffer)`: an empty buffer at a fresh location. -/
def Heap.alloc (h : Heap) : Heap × Nat :=
  (⟨h.bufs ++ [[]]⟩, h.bufs.length)

/-- Dereference a buffer location (`buf.Bytes()`). -/
def Heap.get (h : Heap) (loc : Nat) : Bytes :=
  h.bufs.getD loc []

/-- Overwrite the buffer stored at a location. -/
def Heap.set (h : Heap) (loc : Nat) (b : Bytes) : Heap :=
  ⟨h.bufs.set loc b⟩

/-- Append bytes to the buffer at `loc`, as `bytes.Buffer.Write` does;
it returns `(len(b), nil)` and the updated heap. -/
def Heap.bufWrite (h : Heap) (loc : Nat) (b : Bytes) : Nat × Heap :=
  (b.length, h.set loc (h.get loc ++ b))

/-- Lookup in a Go map modelled as an association list (`m[k]`). -/
def mapLookup : List (String × Nat) → String → Option Nat
  | [], _ => none
  | (k, v) :: rest, key => if k = key then some v else mapLookup rest key

/-- Update a Go map binding (`m[k] = v`): replaces any existing binding. -/
def mapInsert : List (String × Nat) → String → Nat → List (String × Nat)
  | [], key, v => [(key, v)]
  | (k, w) :: rest, key, v =>
    if k = key then (key, v) :: rest else (k, w) :: mapInsert rest key v

/-- Remove a Go map binding (`delete(m, k)`). -/
def mapDelete : List (String × Nat) → String → List (String × Nat)
  | [], _ => []
  | (k, w) :: rest, key =>
    if k = key then mapDelete rest key else (k, w) :: mapDelete rest key

/-- FakeFileNotFound is the error returned by FakeFS when a requested file
is not found. -/
structure FakeFileNotFound where
  Filename : String
  deriving Repr, DecidableEq

/-- Error is the error-interface implementation of `FakeFileNotFound`. -/
def FakeFileNotFound.Error (f : FakeFileNotFound) : String :=
  "Fake file " ++ f.Filename ++ " not found"

/-- The concrete error values the fake implementations can produce
(Go's `error` interface restricted to the values this package uses). -/
inductive GoError where
  | fakeFileNotFound (err : FakeFileNotFound)
  | osErrNotExist
  deriving Repr, DecidableEq

/-- FakeFI represents a fake `os.FileInfo` struct: only the `isDir` flag is
modelled (the embedded `os.FileInfo` of the Go struct is never set). -/
structure FakeFI where
  isDir : Bool
  deriving Repr, DecidableEq

/-- NewFakeFI returns a FakeFI (the Go zero value: `isDir` false). -/
def NewFakeFI : FakeFI := ⟨false⟩

/-- IsDir returns the `isDir` value of a FakeFI instance. -/
def FakeFI.IsDir (ffi : FakeFI) : Bool :=
  ffi.isDir

/-- SetIsDir sets the `isDir` value of a FakeFI instance. -/
def FakeFI.SetIsDir (ffi : FakeFI) (b : Bool) : FakeFI :=
  { ffi with isDir := b }

/-- FakeFS is an in-memory FS implementation: `Files` maps paths to the
heap locations of their `bytes.Buffer` contents. -/
structure FakeFS where
  Files : List (String × Nat)
  deriving Repr, DecidableEq

/-- NewFakeFS returns a FakeFS with no files. -/
def NewFakeFS : FakeFS := ⟨[]⟩

/-- The heap at the start of a scenario: no buffers allocated yet. -/
def emptyHeap : Heap := ⟨[]⟩

/-- inMemoryCloser: the write handle returned by `FakeFS.Create`, holding a
pointer (`buf`, a heap location) to the same buffer the map entry holds. -/
structure inMemoryCloser where
  buf : Nat
  deriving Repr, DecidableEq

/-- Write forwards to `bytes.Buffer.Write` on the handle's buffer:
it appends `b` and returns `(len(b), nil)` with the updated heap. -/
def inMemoryCloser.Write (i : inMemoryCloser) (h : Heap) (b : Bytes) :
    (Nat × Option GoError) × Heap :=
  let (n, h2) := h.bufWrite i.buf b
  ((n, none), h2)

/-- Close on an inMemoryCloser does nothing and returns nil. -/
def inMemoryCloser.Close (_ : inMemoryCloser) : Option GoError :=
  none

/-- ReadFile: returns the bytes of the buffer at `name`, or
`FakeFileNotFound` if the map has no entry for `name`.  It reads the map
and the heap and changes neither. -/
def FakeFS.ReadFile (f : FakeFS) (h : Heap) (name : String) :
    Option Bytes × Option GoError :=
  match mapLookup f.Files name with
  | none => (none, some (.fakeFileNotFound ⟨name⟩))
  | some loc => (some (h.get loc), none)

/-- RemoveAll: deletes the entry at `name`, or returns `FakeFileNotFound`
(leaving the map unchanged) if there is none. -/
def FakeFS.RemoveAll (f : FakeFS) (name : String) :
    Option GoError × FakeFS :=
  match mapLookup f.Files name with
  | none => (some (.fakeFileNotFound ⟨name⟩), f)
  | some _ => (none, ⟨mapDelete f.Files name⟩)

/-- Stat: calls `ReadFile` and returns `os.ErrNotExist` if that errored,
otherwise a fresh `FakeFI`. -/
def FakeFS.Stat (f : FakeFS) (h : Heap) (path : String) :
    Option FakeFI × Option GoError :=
  match (f.ReadFile h path).2 with
  | some _ => (none, some .osErrNotExist)
  | none => (some NewFakeFI, none)

/-- Create: allocates a fresh empty buffer, binds `path` to it (replacing
any existing binding) and returns an `inMemoryCloser` over that same
buffer together with a nil error. -/
def FakeFS.Create (f : FakeFS) (h : Heap) (path : String) :
    (inMemoryCloser × Option GoError) × FakeFS × Heap :=
  let (h2, loc) := h.alloc
  ((⟨loc⟩, none), ⟨mapInsert f.Files path loc⟩, h2)

/-- MkdirAll: implemented as `Create` on the path, returning its error
(the handle is dropped). -/
def FakeFS.MkdirAll (f : FakeFS) (h : Heap) (dirName : String) (_perm : Nat) :
    Option GoError × FakeFS × Heap :=
  let ((_, err), f2, h2) := f.Create h dirName
  (err, f2, h2)

/-- WriteFile: binds `filename` to a brand-new empty buffer, then writes
`data` to that buffer via `bytes.Buffer.Write`, returning its
`(len(data), nil)` result. -/
def FakeFS.WriteFile (f : FakeFS) (h : Heap) (filename : String)
    (data : Bytes) (_perm : Nat) :
    (Nat × Option GoError) × FakeFS × Heap :=
  let (h2, loc) := h.alloc
  let f2 : FakeFS := ⟨mapInsert f.Files filename loc⟩
  let (n, h3) := h2.bufWrite loc data
  ((n, none), f2, h3)

/-- FakeFP represents a fake filepath; it embeds a `FakeFS` and records in
`walkInvoked` whether `Walk` has been called. -/
structure FakeFP where
  toFakeFS : FakeFS
  walkInvoked : Bool
  deriving Repr, DecidableEq

/-- NewFakeFP returns a FakeFP (the Go zero value: empty embedded map,
`walkInvoked` false). -/
def NewFakeFP : FakeFP := ⟨⟨[]⟩, false⟩

/-- The type of `filepath.WalkFunc` visitors as the fake walker calls them:
a visitor receives a path, a file-info stub and an error, and returns an
error (or nil). -/
abbrev WalkFunc := String → FakeFI → Option GoError → Option GoError

/-- Walk on the fake: sets `walkInvoked` and calls the visitor exactly once
with the root path, a fresh `FakeFI` and a nil error, returning whatever
the visitor returns. -/
def FakeFP.Walk (f : FakeFP) (root : String) (walkFunc : WalkFunc) :
    Option GoError × FakeFP :=
  let f2 := { f with walkInvoked := true }
  (walkFunc root NewFakeFI none, f2)

/-- Operations on a `FakeFS` state, for reasoning about traces of calls
(each constructor carries the arguments of the corresponding method). -/
inductive Op where
  | writeFile (p : String) (data : Bytes) (perm : Nat)
  | create (p : String)
  | mkdirAll (p : String) (perm : Nat)
  | removeAll (p : String)
  | readFile (p : String)
  | stat (p : String)
  deriving Repr, DecidableEq

/-- Run one operation for its state effect (results are discarded). -/
def runOp : FakeFS × Heap → Op → FakeFS × Heap
  | (f, h), .writeFile p d perm =>
    let (_, f2, h2) := f.WriteFile h p d perm
    (f2, h2)
  | (f, h), .create p =>
    let (_, f2, h2) := f.Create h p
    (f2, h2)
  | (f, h), .mkdirAll p perm =>
    let (_, f2, h2) := f.MkdirAll h p perm
    (f2, h2)
  | (f, h), .removeAll p =>
    let (_, f2) := f.RemoveAll p
    (f2, h)
  | (f, h), .readFile _ => (f, h)
  | (f, h), .stat _ => (f, h)

/-- Run a trace of operations from a starting state. -/
def run (s : FakeFS × Heap) (ops : List Op) : FakeFS × Heap :=
  ops.foldl runOp s

/-- Does the operation install an entry at path `p`?  Only `WriteFile`,
`Create` and `MkdirAll` ever add a map binding. -/
def Op.writesTo : Op → String → Bool
  | .writeFile q _ _, p => q = p
  | .create q, p => q = p
  | .mkdirAll q _, p => q = p
  | .removeAll _, _ => false
  | .readFile _, _ => false
  | .stat _, _ => false

/-! Helper lemmas about the map and heap primitives. -/

theorem mapLookup_mapInsert_self (m : List (String × Nat)) (k : String) (v : Nat) :
    mapLookup (mapInsert m k v) k = some v := by
  induction m with
  | nil => simp [mapInsert, mapLookup]
  | cons hd tl ih =>
    obtain ⟨k2, w⟩ := hd
    by_cases hk : k2 = k
    · simp [mapInsert, hk, mapLookup]
    · simp [mapInsert, hk, mapLookup, ih]

theorem mapLookup_mapDelete_self (m : List (String × Nat)) (k : String) :
    mapLookup (mapDelete m k) k = none := by
  induction m with
  | nil => simp [mapDelete, mapLookup]
  | cons hd tl ih =>
    obtain ⟨k2, w⟩ := hd
    by_cases hk : k2 = k
    · simpa [mapDelete, hk] using ih
    · simp [mapDelete, hk, mapLookup, ih]

theorem mapLookup_mapInsert_ne (m : List (String × Nat)) (k q : String) (v : Nat)
    (hne : k ≠ q) : mapLookup (mapInsert m k v) q = mapLookup m q := by
  induction m with
  | nil => simp [mapInsert, mapLookup, hne]
  | cons hd tl ih =>
    obtain ⟨k2, w⟩ := hd
    by_cases hk : k2 = k
    · simp [mapInsert, hk, mapLookup, hne]
    · simp [mapInsert, hk, mapLookup, ih]

theorem mapLookup_mapDelete_none (m : List (String × Nat)) (k q : String)
    (hq : mapLookup m q = none) : mapLookup (mapDelete m k) q = none := by
  induction m with
  | nil => simp [mapDelete, mapLookup]
  | cons hd tl ih =>
    obtain ⟨k2, w⟩ := hd
    by_cases hkq : k2 = q
    · simp [mapLookup, hkq] at hq
    · simp [mapLookup, hkq] at hq
      by_cases hk : k2 = k
      · simp [mapDelete, hk, ih hq]
      · simp [mapDelete, hk, mapLookup, hkq, ih hq]

theorem getD_append_singleton (l : List Bytes) (b : Bytes) :
    (l ++ [b]).getD l.length [] = b := by
  induction l with
  | nil => rfl
  | cons hd tl ih => simp only [List.cons_append, List.length_cons]; exact ih

theorem getD_set_self (l : List Bytes) (n : Nat) (b : Bytes) (hn : n < l.length) :
    (l.set n b).getD n [] = b := by
  induction l generalizing n with
  | nil => simp at hn
  | cons hd tl ih =>
    cases n with
    | zero => rfl
    | succ n2 =>
      simp only [List.length_cons, Nat.succ_lt_succ_iff] at hn
      exact ih n2 hn

/-- Reading the fresh buffer a `WriteFile` installed yields exactly the
written data. -/
theorem WriteFile_then_ReadFile (f : FakeFS) (h : Heap) (p : String)
    (data : Bytes) (perm : Nat) :
    ((f.WriteFile h p data perm).2.1).ReadFile (f.WriteFile h p data perm).2.2 p
      = (some data, none) := by
  have h1 : (h.bufs ++ [[]]).getD h.bufs.length [] = [] :=
    getD_append_singleton h.bufs []
  have h2 : ((h.bufs ++ [[]]).set h.bufs.length data).getD h.bufs.length [] = data :=
    getD_set_self (h.bufs ++ [[]]) h.bufs.length data (by simp)
  simp only [FakeFS.WriteFile, Heap.alloc, Heap.bufWrite, Heap.get, Heap.set,
    FakeFS.ReadFile, mapLookup_mapInsert_self, h1, List.nil_append, h2]

/-- A single non-writing operation keeps an absent path absent. -/
theorem runOp_preserves_absent (s : FakeFS × Heap) (op : Op) (p : String)
    (hab : mapLookup s.1.Files p = none) (hw : op.writesTo p = false) :
    mapLookup (runOp s op).1.Files p = none := by
  obtain ⟨f, h⟩ := s
  cases op with
  | writeFile q d perm =>
    simp only [Op.writesTo, decide_eq_false_iff_not] at hw
    simp only [runOp, FakeFS.WriteFile, Heap.alloc, Heap.bufWrite]
    exact (mapLookup_mapInsert_ne f.Files q p _ hw).trans hab
  | create q =>
    simp only [Op.writesTo, decide_eq_false_iff_not] at hw
    simp only [runOp, FakeFS.Create, Heap.alloc]
    exact (mapLookup_mapInsert_ne f.Files q p _ hw).trans hab
  | mkdirAll q perm =>
    simp only [Op.writesTo, decide_eq_false_iff_not] at hw
    simp only [runOp, FakeFS.MkdirAll, FakeFS.Create, Heap.alloc]
    exact (mapLookup_mapInsert_ne f.Files q p _ hw).trans hab
  | removeAll q =>
    simp only [runOp, FakeFS.RemoveAll]
    cases hq : mapLookup f.Files q with
    | none => simpa using hab
    | some loc => simpa using mapLookup_mapDelete_none f.Files q p hab
  | readFile q => simpa [runOp] using hab
  | stat q => simpa [runOp] using hab

/-- A trace of non-writing operations keeps an absent path absent. -/
theorem run_preserves_absent (ops : List Op) (s : FakeFS × Heap) (p : String)
    (hab : mapLookup s.1.Files p = none)
    (hw : ∀ op ∈ ops, op.writesTo p = false) :
    mapLookup (run s ops).1.Files p = none := by
  induction ops generalizing s with
  | nil => exact hab
  | cons op rest ih =>
    exact ih (runOp s op)
      (runOp_preserves_absent s op p hab (hw op (by simp)))
      (fun o ho => hw o (by simp [ho]))

/-- C1: for every path `p`, data and mode, `FakeFS.WriteFile p data m`
succeeds, returning `(len data, nil)`, and an immediately following
`FakeFS.ReadFile p` returns exactly `data`. -/
theorem writeFile_succeeds_readFile_roundtrip (f : FakeFS) (h : Heap)
    (p : String) (data : Bytes) (m : Nat) :
    (f.WriteFile h p data m).1 = (data.length, none) ∧
    ((f.WriteFile h p data m).2.1).ReadFile (f.WriteFile h p data m).2.2 p
      = (some data, none) := by
  refine ⟨?_, WriteFile_then_ReadFile f h p data m⟩
  simp [FakeFS.WriteFile, Heap.alloc, Heap.bufWrite]

/-- C2: starting from a fresh `FakeFS`, after any trace of operations none
of which writes (WriteFile/Create/MkdirAll) to `p`, `ReadFile p` fails with
`FakeFileNotFound` carrying `p`; in particular a fresh `FakeFS` answers
`ReadFile "missing.txt"` with `FakeFileNotFound{Filename: "missing.txt"}`. -/
theorem readFile_never_written_not_found (p : String) (ops : List Op)
    (hw : ops.all (fun op => ! op.writesTo p) = true) :
    ((run (NewFakeFS, emptyHeap) ops).1).ReadFile
        (run (NewFakeFS, emptyHeap) ops).2 p
      = (none, some (.fakeFileNotFound ⟨p⟩)) ∧
    NewFakeFS.ReadFile emptyHeap "missing.txt"
      = (none, some (.fakeFileNotFound ⟨"missing.txt"⟩)) := by
  have hw2 : ∀ op ∈ ops, op.writesTo p = false := by
    intro op hop
    have := List.all_eq_true.mp hw op hop
    simpa using this
  have habs : mapLookup (run (NewFakeFS, emptyHeap) ops).1.Files p = none :=
    run_preserves_absent ops (NewFakeFS, emptyHeap) p rfl hw2
  constructor
  · simp [FakeFS.ReadFile, habs]
  · rfl

/-- Witness for C2: a concrete trace that removes a missing file and writes
another path never writes to "missing.txt", and reading it fails. -/
theorem readFile_never_written_not_found_witness :
    ([Op.removeAll "missing.txt", Op.writeFile "other.txt" [104, 105] 420,
        Op.stat "missing.txt"].all
      (fun op => ! op.writesTo "missing.txt") = true) ∧
    (((run (NewFakeFS, emptyHeap)
          [Op.removeAll "missing.txt", Op.writeFile "other.txt" [104, 105] 420,
            Op.stat "missing.txt"]).1).ReadFile
        (run (NewFakeFS, emptyHeap)
          [Op.removeAll "missing.txt", Op.writeFile "other.txt" [104, 105] 420,
            Op.stat "missing.txt"]).2 "missing.txt"
      = (none, some (.fakeFileNotFound ⟨"missing.txt"⟩)) ∧
    NewFakeFS.ReadFile emptyHeap "missing.txt"
      = (none, some (.fakeFileNotFound ⟨"missing.txt"⟩))) :=
  ⟨by decide,
    readFile_never_written_not_found "missing.txt"
      [Op.removeAll "missing.txt", Op.writeFile "other.txt" [104, 105] 420,
        Op.stat "missing.txt"] (by decide)⟩

/-- C3: two successive `WriteFile`s to the same path leave the second data:
the second write replaces the first, it does not append. -/
theorem writeFile_overwrites (f : FakeFS) (h : Heap) (p : String)
    (d1 d2 : Bytes) (m1 m2 : Nat) :
    ((((f.WriteFile h p d1 m1).2.1).WriteFile
          (f.WriteFile h p d1 m1).2.2 p d2 m2).2.1).ReadFile
        (((f.WriteFile h p d1 m1).2.1).WriteFile
          (f.WriteFile h p d1 m1).2.2 p d2 m2).2.2 p
      = (some d2, none) :=
  WriteFile_then_ReadFile (f.WriteFile h p d1 m1).2.1
    (f.WriteFile h p d1 m1).2.2 p d2 m2

/-- C4: `Create p` returns a nil error and installs an empty entry at `p`
(read back as no bytes, replacing whatever was there); writing `b` through
the returned handle makes `ReadFile p` return exactly `b`; `Close` is a
no-op returning nil. -/
theorem create_empty_then_handle_write_readFile (f : FakeFS) (h : Heap)
    (p : String) (b : Bytes) :
    (f.Create h p).1.2 = none ∧
    ((f.Create h p).2.1).ReadFile (f.Create h p).2.2 p = (some [], none) ∧
    ((f.Create h p).1.1).Write (f.Create h p).2.2 b
      = ((b.length, none),
          ((f.Create h p).2.2).set (f.Create h p).1.1.buf b) ∧
    ((f.Create h p).2.1).ReadFile
        (((f.Create h p).1.1).Write (f.Create h p).2.2 b).2 p
      = (some b, none) ∧
    ((f.Create h p).1.1).Close = none := by
  have h1 : (h.bufs ++ [[]]).getD h.bufs.length [] = [] :=
    getD_append_singleton h.bufs []
  have h2 : ((h.bufs ++ [[]]).set h.bufs.length b).getD h.bufs.length [] = b :=
    getD_set_self (h.bufs ++ [[]]) h.bufs.length b (by simp)
  refine ⟨rfl, ?_, ?_, ?_, rfl⟩
  · simp only [FakeFS.Create, Heap.alloc, FakeFS.ReadFile,
      mapLookup_mapInsert_self, Heap.get, h1]
  · simp only [FakeFS.Create, Heap.alloc, inMemoryCloser.Write, Heap.bufWrite,
      Heap.get, Heap.set, h1, List.nil_append]
  · simp only [FakeFS.Create, Heap.alloc, inMemoryCloser.Write, Heap.bufWrite,
      Heap.get, Heap.set, FakeFS.ReadFile, mapLookup_mapInsert_self, h1,
      List.nil_append, h2]

/-- C5: `RemoveAll p` fails with `FakeFileNotFound` (leaving the state as
it was) when `p` has no entry; after a `WriteFile p data m`, `RemoveAll p`
succeeds and a subsequent `ReadFile p` fails with `FakeFileNotFound`. -/
theorem removeAll_absent_fails_after_write_removes (f : FakeFS) (h : Heap)
    (p : String) (data : Bytes) (m : Nat) :
    (mapLookup f.Files p = none →
      f.RemoveAll p = (some (.fakeFileNotFound ⟨p⟩), f)) ∧
    (((f.WriteFile h p data m).2.1).RemoveAll p).1 = none ∧
    ((((f.WriteFile h p data m).2.1).RemoveAll p).2).ReadFile
        (f.WriteFile h p data m).2.2 p
      = (none, some (.fakeFileNotFound ⟨p⟩)) := by
  refine ⟨fun hab => ?_, ?_, ?_⟩
  · simp [FakeFS.RemoveAll, hab]
  · simp [FakeFS.WriteFile, Heap.alloc, Heap.bufWrite, FakeFS.RemoveAll,
      mapLookup_mapInsert_self]
  · simp [FakeFS.WriteFile, Heap.alloc, Heap.bufWrite, FakeFS.RemoveAll,
      mapLookup_mapInsert_self, FakeFS.ReadFile, mapLookup_mapDelete_self]

/-- Witness for C5 at concrete inputs: a fresh fake has no "missing.txt",
so `RemoveAll` fails there; writing then removing "a.txt" makes a read of
"a.txt" fail. -/
theorem removeAll_absent_fails_after_write_removes_witness :
    NewFakeFS.RemoveAll "missing.txt"
      = (some (.fakeFileNotFound ⟨"missing.txt"⟩), NewFakeFS) ∧
    (((NewFakeFS.WriteFile emptyHeap "a.txt" [104] 420).2.1).RemoveAll
        "a.txt").1 = none ∧
    ((((NewFakeFS.WriteFile emptyHeap "a.txt" [104] 420).2.1).RemoveAll
          "a.txt").2).ReadFile
        (NewFakeFS.WriteFile emptyHeap "a.txt" [104] 420).2.2 "a.txt"
      = (none, some (.fakeFileNotFound ⟨"a.txt"⟩)) :=
  ⟨(removeAll_absent_fails_after_write_removes NewFakeFS emptyHeap
      "missing.txt" [104] 420).1 rfl,
    (removeAll_absent_fails_after_write_removes NewFakeFS emptyHeap
      "a.txt" [104] 420).2.1,
    (removeAll_absent_fails_after_write_removes NewFakeFS emptyHeap
      "a.txt" [104] 420).2.2⟩

/-- C6: `Stat p` fails with `os.ErrNotExist` when no entry exists at `p`,
and succeeds with a descriptor whose `IsDir` is false when one does. -/
theorem stat_absent_notExist_present_notDir (f : FakeFS) (h : Heap)
    (p : String) :
    (mapLookup f.Files p = none →
      f.Stat h p = (none, some .osErrNotExist)) ∧
    (∀ loc, mapLookup f.Files p = some loc →
      f.Stat h p = (some NewFakeFI, none) ∧ NewFakeFI.IsDir = false) := by
  constructor
  · intro hab
    simp [FakeFS.Stat, FakeFS.ReadFile, hab]
  · intro loc hloc
    refine ⟨?_, rfl⟩
    simp [FakeFS.Stat, FakeFS.ReadFile, hloc]

/-- Witness for C6 at concrete inputs: `Stat` fails on a fresh fake, and
succeeds with a not-a-directory descriptor on a one-file fake. -/
theorem stat_absent_notExist_present_notDir_witness :
    (mapLookup NewFakeFS.Files "a.txt" = none ∧
      NewFakeFS.Stat emptyHeap "a.txt" = (none, some .osErrNotExist)) ∧
    (mapLookup (FakeFS.mk [("b.txt", 0)]).Files "b.txt" = some 0 ∧
      (FakeFS.mk [("b.txt", 0)]).Stat (Heap.mk [[104]]) "b.txt"
        = (some NewFakeFI, none) ∧
      NewFakeFI.IsDir = false) :=
  ⟨⟨rfl, (stat_absent_notExist_present_notDir NewFakeFS emptyHeap
      "a.txt").1 rfl⟩,
    ⟨rfl, (stat_absent_notExist_present_notDir (FakeFS.mk [("b.txt", 0)])
      (Heap.mk [[104]]) "b.txt").2 0 rfl⟩⟩

/-- C7: `MkdirAll p m` always succeeds and leaves an empty entry at `p`
(also when `p` previously held data): `ReadFile p` then yields no bytes and
`Stat p` yields a descriptor that is not a directory — the fake models a
directory exactly like an empty file. -/
theorem mkdirAll_creates_empty_entry (f : FakeFS) (h : Heap) (p : String)
    (m : Nat) :
    (f.MkdirAll h p m).1 = none ∧
    ((f.MkdirAll h p m).2.1).ReadFile (f.MkdirAll h p m).2.2 p
      = (some [], none) ∧
    ((f.MkdirAll h p m).2.1).Stat (f.MkdirAll h p m).2.2 p
      = (some NewFakeFI, none) ∧
    NewFakeFI.IsDir = false := by
  have h1 : (h.bufs ++ [[]]).getD h.bufs.length [] = [] :=
    getD_append_singleton h.bufs []
  refine ⟨rfl, ?_, ?_, rfl⟩
  · simp only [FakeFS.MkdirAll, FakeFS.Create, Heap.alloc, FakeFS.ReadFile,
      mapLookup_mapInsert_self, Heap.get, h1]
  · simp only [FakeFS.MkdirAll, FakeFS.Create, Heap.alloc, FakeFS.Stat,
      FakeFS.ReadFile, mapLookup_mapInsert_self]

/-- C8: `FakeFP.Walk` is exactly one application of the visitor, at the
root path, a fresh `FakeFI` (whose `IsDir` is false) and a nil error, and
it sets `walkInvoked`. -/
theorem fakeFP_walk_single_synthetic_visit (f : FakeFP) (root : String)
    (v : WalkFunc) :
    f.Walk root v = (v root NewFakeFI none, { f with walkInvoked := true }) ∧
    NewFakeFI.IsDir = false ∧
    (f.Walk root v).2.walkInvoked = true :=
  ⟨rfl, rfl, rfl⟩

/-- C9: the operations that can fail leave the `Files` mapping unchanged:
`ReadFile` and `Stat` never touch the state, and `RemoveAll` on an absent
path returns the error with the state exactly as before. -/
theorem failing_ops_leave_files_unchanged (f : FakeFS) (h : Heap)
    (p : String) :
    runOp (f, h) (.readFile p) = (f, h) ∧
    runOp (f, h) (.stat p) = (f, h) ∧
    (mapLookup f.Files p = none →
      f.RemoveAll p = (some (.fakeFileNotFound ⟨p⟩), f)) := by
  refine ⟨rfl, rfl, fun hab => ?_⟩
  simp [FakeFS.RemoveAll, hab]

/-- Witness for C9 at concrete inputs: on a one-file fake, reads and stats
are state-identities, and `RemoveAll` of an absent path returns the fake
unchanged. -/
theorem failing_ops_leave_files_unchanged_witness :
    runOp (FakeFS.mk [("b.txt", 0)], Heap.mk [[104]]) (.readFile "x.txt")
      = (FakeFS.mk [("b.txt", 0)], Heap.mk [[104]]) ∧
    runOp (FakeFS.mk [("b.txt", 0)], Heap.mk [[104]]) (.stat "x.txt")
      = (FakeFS.mk [("b.txt", 0)], Heap.mk [[104]]) ∧
    (FakeFS.mk [("b.txt", 0)]).RemoveAll "x.txt"
      = (some (.fakeFileNotFound ⟨"x.txt"⟩), FakeFS.mk [("b.txt", 0)]) :=
  ⟨(failing_ops_leave_files_unchanged (FakeFS.mk [("b.txt", 0)])
      (Heap.mk [[104]]) "x.txt").1,
    (failing_ops_leave_files_unchanged (FakeFS.mk [("b.txt", 0)])
      (Heap.mk [[104]]) "x.txt").2.1,
    (failing_ops_leave_files_unchanged (FakeFS.mk [("b.txt", 0)])
      (Heap.mk [[104]]) "x.txt").2.2 rfl⟩

/-- C10: `FakeFP.Walk` returns exactly what the visitor returns for its
single synthetic invocation — in particular a non-nil visitor error is
propagated — and `walkInvoked` is set regardless of that value. -/
theorem fakeFP_walk_propagates_visitor_result (f : FakeFP) (root : String)
    (v : WalkFunc) :
    (f.Walk root v).1 = v root NewFakeFI none ∧
    (f.Walk root v).2.walkInvoked = true ∧
    (∀ e : GoError, v root NewFakeFI none = some e →
      (f.Walk root v).1 = some e) :=
  ⟨rfl, rfl, fun _ he => he⟩

/-- Witness for C10 at concrete inputs: a visitor that always errors has
its error propagated by `Walk`, and `walkInvoked` is still set. -/
theorem fakeFP_walk_propagates_visitor_result_witness :
    (NewFakeFP.Walk "root"
        (fun _ _ _ => some GoError.osErrNotExist)).1
      = (fun (_ : String) (_ : FakeFI) (_ : Option GoError) =>
          some GoError.osErrNotExist) "root" NewFakeFI none ∧
    (NewFakeFP.Walk "root"
        (fun _ _ _ => some GoError.osErrNotExist)).2.walkInvoked = true ∧
    (NewFakeFP.Walk "root"
        (fun _ _ _ => some GoError.osErrNotExist)).1
      = some GoError.osErrNotExist :=
  ⟨(fakeFP_walk_propagates_visitor_result NewFakeFP "root"
      (fun _ _ _ => some GoError.osErrNotExist)).1,
    (fakeFP_walk_propagates_visitor_result NewFakeFP "root"
      (fun _ _ _ => some GoError.osErrNotExist)).2.1,
    (fakeFP_walk_propagates_visitor_result NewFakeFP "root"
      (fun _ _ _ => some GoError.osErrNotExist)).2.2
      GoError.osErrNotExist rfl⟩

end Sys
